import Mathlib

/-!
Shallow embedding of the order-integrity and pricing subsystem of the
e-commerce CRUD service in src/index.js.

Modelling choices:
* Monetary values and prices are exact rationals (the source stores FLOAT
  columns; claims about pricing are settled over exact decimal arithmetic).
* JavaScript `Math.round` rounds to the nearest integer with ties toward
  positive infinity; it is embedded as `mathRound x = ⌊x + 1/2⌋`.
* Request bodies are typed: `userId` is an optional natural number,
  `products` an optional list of line items, `total` an optional rational
  (present in the model because the handlers must be shown to ignore it).
  JavaScript truthiness of a numeric field (`!userId` is true for a missing
  field and for 0) is modelled explicitly.
* The persistent stores are association lists searched by primary key
  (`findByPk`), and a handler run is a function from the pre-state and the
  request to the post-state paired with the response.
-/

structure User where
  id : Nat
  name : String
  email : String
  password : String
deriving DecidableEq

structure Product where
  id : Nat
  name : String
  description : String
  price : ℚ
  categoryId : Nat
deriving DecidableEq

/-- A `{productId, quantity}` pair inside an order's `products` JSON column.
The source never constrains `quantity`; it is any (possibly negative)
integer here. -/
structure LineItem where
  productId : Nat
  quantity : Int
deriving DecidableEq

structure Order where
  id : Nat
  userId : Nat
  products : List LineItem
  total : ℚ
deriving DecidableEq

/-- The persisted database state: the three tables the order endpoints touch. -/
structure Store where
  users : List User
  products : List Product
  orders : List Order
deriving DecidableEq

/-- `User.findByPk id`. -/
def Store.findUser (s : Store) (id : Nat) : Option User :=
  s.users.find? (fun u => u.id == id)

/-- `Product.findByPk id`. -/
def Store.findProduct (s : Store) (id : Nat) : Option Product :=
  s.products.find? (fun p => p.id == id)

/-- `Order.findByPk id`. -/
def Store.findOrder (s : Store) (id : Nat) : Option Order :=
  s.orders.find? (fun o => o.id == id)

/-- JavaScript `Math.round`: nearest integer, ties toward positive infinity. -/
def mathRound (x : ℚ) : Int := ⌊x + 1/2⌋

/-- The rounding step of `calculateOrderTotal`:
`Math.round(total * 100) / 100`. -/
def round2 (x : ℚ) : ℚ := (mathRound (x * 100) : ℚ) / 100

/-- Round-half-away-from-zero to the nearest integer (the rounding mode the
spec names; it differs from `mathRound` exactly on negative ties). -/
def roundHalfAwayFromZero (x : ℚ) : Int :=
  if x < 0 then -⌊-x + 1/2⌋ else ⌊x + 1/2⌋

/-- Round-half-away-from-zero to 2 decimal places. -/
def round2Away (x : ℚ) : ℚ := (roundHalfAwayFromZero (x * 100) : ℚ) / 100

/-- `calculateOrderTotal` (src/index.js lines 427-436): walk the line items,
look each product up by primary key, and when it exists accumulate
`price * quantity`; a missing product is silently skipped.  The accumulated
sum is rounded once at the end via `Math.round(total * 100) / 100`. -/
def calculateOrderTotal (s : Store) (orderProducts : List LineItem) : ℚ :=
  round2 (orderProducts.foldl
    (fun total item =>
      match s.findProduct item.productId with
      | some product => total + product.price * (item.quantity : ℚ)
      | none => total)
    0)

/-- The exact (unrounded) catalog value of one line item against store `s`:
the referenced product's current price times the quantity, or 0 when the
reference does not resolve. -/
def itemPrice (s : Store) (item : LineItem) : ℚ :=
  match s.findProduct item.productId with
  | some product => product.price * (item.quantity : ℚ)
  | none => 0

/-- The exact (unrounded) sum of `price × quantity` over a line-item list. -/
def exactOrderSum (s : Store) (items : List LineItem) : ℚ :=
  (items.map (itemPrice s)).sum

/-- The error responses the two order-mutation handlers can produce. -/
inductive ApiError where
  | missingFields
  | userNotExist
  | productNotExist (productId : Nat)
  | orderNotFound
deriving DecidableEq

/-- The request body of POST /orders and PUT /orders/:id, with exactly the
fields the handlers could read; `total` is carried to state that it is
ignored. -/
structure OrderRequestBody where
  userId : Option Nat
  products : Option (List LineItem)
  total : Option ℚ
deriving DecidableEq

/-- The first line item whose `productId` does not resolve, if any: the
existence check loop of both handlers stops at the first missing product. -/
def firstMissingProduct (s : Store) (items : List LineItem) : Option Nat :=
  (items.find? (fun item => (s.findProduct item.productId).isNone)).map
    (fun item => item.productId)

/-- The autoincrement primary key assigned to a freshly created order. -/
def nextOrderId (s : Store) : Nat :=
  (s.orders.foldl (fun m o => max m o.id) 0) + 1

/-- POST /orders (src/index.js lines 449-487).  `!userId` is JavaScript
truthiness: a missing or zero `userId`, or a missing `products` field, is the
MissingField response.  Then the user and every product reference are checked
before `calculateOrderTotal` runs and the order row is inserted. -/
def createOrder (s : Store) (body : OrderRequestBody) :
    Store × Except ApiError Order :=
  match body.userId, body.products with
  | some userId, some orderProducts =>
    if userId = 0 then (s, .error .missingFields)
    else
      match s.findUser userId with
      | none => (s, .error .userNotExist)
      | some _ =>
        match firstMissingProduct s orderProducts with
        | some pid => (s, .error (.productNotExist pid))
        | none =>
          let order : Order :=
            { id := nextOrderId s
              userId := userId
              products := orderProducts
              total := calculateOrderTotal s orderProducts }
          ({ s with orders := s.orders ++ [order] }, .ok order)
  | _, _ => (s, .error .missingFields)

/-- The `if (userId)` block of PUT /orders/:id: a falsy (absent or zero)
`userId` leaves the record untouched; otherwise the user must exist and the
in-memory record's `userId` is overwritten. -/
def applyUserIdUpdate (s : Store) (uid : Option Nat) (order : Order) :
    Except ApiError Order :=
  match uid with
  | some userId =>
    if userId = 0 then .ok order
    else
      match s.findUser userId with
      | none => .error .userNotExist
      | some _ => .ok { order with userId := userId }
  | none => .ok order

/-- `order.save()`: write the mutated record back over the row with its id. -/
def saveOrder (s : Store) (o : Order) : Store :=
  { s with orders := s.orders.map (fun x => if x.id = o.id then o else x) }

/-- PUT /orders/:id (src/index.js lines 505-545): load the row (404 when
absent), apply the validated `userId` change, then — only when a `products`
array was supplied — check every product reference, overwrite `products`,
recompute `total` with `calculateOrderTotal`, and finally `order.save()`. -/
def updateOrder (s : Store) (orderId : Nat) (body : OrderRequestBody) :
    Store × Except ApiError Order :=
  match s.findOrder orderId with
  | none => (s, .error .orderNotFound)
  | some order =>
    match applyUserIdUpdate s body.userId order with
    | .error e => (s, .error e)
    | .ok order1 =>
      match body.products with
      | some orderProducts =>
        match firstMissingProduct s orderProducts with
        | some pid => (s, .error (.productNotExist pid))
        | none =>
          let order2 : Order :=
            { order1 with
              products := orderProducts
              total := calculateOrderTotal s orderProducts }
          (saveOrder s order2, .ok order2)
      | none => (saveOrder s order1, .ok order1)

/-! ### Basic lemmas about the pricing engine -/

lemma foldl_step_eq (s : Store) (items : List LineItem) (init : ℚ) :
    items.foldl (fun total item =>
      match s.findProduct item.productId with
      | some product => total + product.price * (item.quantity : ℚ)
      | none => total) init = init + exactOrderSum s items := by
  induction items generalizing init with
  | nil => simp [exactOrderSum]
  | cons a l ih =>
    rw [List.foldl_cons, ih]
    simp only [exactOrderSum, List.map_cons, List.sum_cons]
    cases h : s.findProduct a.productId with
    | none => simp [itemPrice, h]
    | some p => simp [itemPrice, h]; ring

/-- The engine is the round-once-at-the-end combination: the code's loop
accumulates the exact per-item values and `round2` is applied a single time
to the final sum. -/
lemma calculateOrderTotal_eq (s : Store) (items : List LineItem) :
    calculateOrderTotal s items = round2 (exactOrderSum s items) := by
  unfold calculateOrderTotal
  rw [foldl_step_eq, zero_add]

lemma round2_eq_round2Away_of_nonneg (x : ℚ) (hx : 0 ≤ x) :
    round2 x = round2Away x := by
  unfold round2 round2Away roundHalfAwayFromZero mathRound
  rw [if_neg (not_lt.mpr (by positivity))]

/-! ### Lemmas about the reference-existence check -/

lemma firstMissingProduct_eq_none (s : Store) (items : List LineItem) :
    firstMissingProduct s items = none ↔
      ∀ item ∈ items, (s.findProduct item.productId).isSome := by
  unfold firstMissingProduct
  rw [Option.map_eq_none']
  rw [List.find?_eq_none]
  constructor
  · intro h item hmem
    have := h item hmem
    simpa [Option.isNone_iff_eq_none, Option.isSome_iff_ne_none] using this
  · intro h item hmem
    have := h item hmem
    simpa [Option.isNone_iff_eq_none, Option.isSome_iff_ne_none] using this

lemma firstMissingProduct_eq_some (s : Store) (items : List LineItem) (pid : Nat)
    (h : firstMissingProduct s items = some pid) :
    s.findProduct pid = none ∧ pid ∈ items.map (fun i => i.productId) := by
  unfold firstMissingProduct at h
  rw [Option.map_eq_some'] at h
  obtain ⟨item, hfind, hpid⟩ := h
  have h1 := List.find?_some hfind
  have h2 := List.mem_of_find?_eq_some hfind
  subst hpid
  constructor
  · simpa [Option.isNone_iff_eq_none] using h1
  · exact List.mem_map_of_mem _ h2

lemma firstMissingProduct_isSome (s : Store) (items : List LineItem)
    (h : ∃ item ∈ items, s.findProduct item.productId = none) :
    ∃ pid, firstMissingProduct s items = some pid := by
  obtain ⟨item, hmem, hnone⟩ := h
  have hs : (items.find? fun i => (s.findProduct i.productId).isNone).isSome := by
    rw [List.find?_isSome]
    exact ⟨item, hmem, by simp [hnone]⟩
  obtain ⟨it, hit⟩ := Option.isSome_iff_exists.mp hs
  exact ⟨it.productId, by rw [firstMissingProduct, hit]; rfl⟩

/-! ### Inversion lemmas for the two mutation handlers -/

lemma applyUserIdUpdate_ok (s : Store) (uid : Option Nat) (order r : Order)
    (h : applyUserIdUpdate s uid order = .ok r) :
    r.id = order.id ∧ r.products = order.products ∧ r.total = order.total := by
  cases uid with
  | none =>
    simp only [applyUserIdUpdate, Except.ok.injEq] at h
    subst h
    exact ⟨rfl, rfl, rfl⟩
  | some userId =>
    by_cases hz : userId = 0
    · simp only [applyUserIdUpdate, if_pos hz, Except.ok.injEq] at h
      subst h
      exact ⟨rfl, rfl, rfl⟩
    · cases hfu : s.findUser userId with
      | none => simp [applyUserIdUpdate, if_neg hz, hfu] at h
      | some u =>
        simp only [applyUserIdUpdate, if_neg hz, hfu, Except.ok.injEq] at h
        subst h
        exact ⟨rfl, rfl, rfl⟩

lemma createOrder_ok_inv (s : Store) (body : OrderRequestBody) (st : Store) (o : Order)
    (h : createOrder s body = (st, .ok o)) :
    ∃ uid items, body.userId = some uid ∧ body.products = some items ∧
      uid ≠ 0 ∧ (s.findUser uid).isSome ∧
      firstMissingProduct s items = none ∧
      o = { id := nextOrderId s, userId := uid, products := items,
            total := calculateOrderTotal s items } ∧
      st = { s with orders := s.orders ++ [o] } := by
  obtain ⟨bu, bp, bt⟩ := body
  cases bu with
  | none => simp [createOrder] at h
  | some uid =>
    cases bp with
    | none => simp [createOrder] at h
    | some items =>
      by_cases hz : uid = 0
      · simp [createOrder, if_pos hz] at h
      · cases hfu : s.findUser uid with
        | none => simp [createOrder, if_neg hz, hfu] at h
        | some u =>
          cases hm : firstMissingProduct s items with
          | some pid => simp [createOrder, if_neg hz, hfu, hm] at h
          | none =>
            simp only [createOrder, if_neg hz, hfu, hm, Prod.mk.injEq,
              Except.ok.injEq] at h
            obtain ⟨hst, hok⟩ := h
            subst hok
            exact ⟨uid, items, rfl, rfl, hz, by simp [hfu], hm, rfl, hst.symm⟩

lemma updateOrder_ok_inv (s : Store) (oid : Nat) (body : OrderRequestBody)
    (st : Store) (o : Order) (h : updateOrder s oid body = (st, .ok o)) :
    ∃ order order1, s.findOrder oid = some order ∧
      applyUserIdUpdate s body.userId order = .ok order1 ∧
      ((∃ items, body.products = some items ∧ firstMissingProduct s items = none ∧
          o = { order1 with products := items, total := calculateOrderTotal s items } ∧
          st = saveOrder s o) ∨
        (body.products = none ∧ o = order1 ∧ st = saveOrder s o)) := by
  cases hord : s.findOrder oid with
  | none => simp [updateOrder, hord] at h
  | some order =>
    cases hap : applyUserIdUpdate s body.userId order with
    | error e => simp [updateOrder, hord, hap] at h
    | ok order1 =>
      cases hbp : body.products with
      | none =>
        simp only [updateOrder, hord, hap, hbp, Prod.mk.injEq, Except.ok.injEq] at h
        obtain ⟨hst, hok⟩ := h
        subst hok
        exact ⟨order, order1, rfl, hap, Or.inr ⟨rfl, rfl, hst.symm⟩⟩
      | some items =>
        cases hm : firstMissingProduct s items with
        | some pid => simp [updateOrder, hord, hap, hbp, hm] at h
        | none =>
          simp only [updateOrder, hord, hap, hbp, hm, Prod.mk.injEq,
            Except.ok.injEq] at h
          obtain ⟨hst, hok⟩ := h
          subst hok
          exact ⟨order, order1, rfl, hap, Or.inl ⟨items, rfl, hm, rfl, hst.symm⟩⟩

lemma createOrder_cases (s : Store) (body : OrderRequestBody) :
    (createOrder s body).1 = s ∨
      ∃ o, createOrder s body = ({ s with orders := s.orders ++ [o] }, .ok o) := by
  obtain ⟨bu, bp, bt⟩ := body
  cases bu with
  | none => left; simp [createOrder]
  | some uid =>
    cases bp with
    | none => left; simp [createOrder]
    | some items =>
      by_cases hz : uid = 0
      · left; simp [createOrder, if_pos hz]
      · cases hfu : s.findUser uid with
        | none => left; simp [createOrder, if_neg hz, hfu]
        | some u =>
          cases hm : firstMissingProduct s items with
          | some pid => left; simp [createOrder, if_neg hz, hfu, hm]
          | none =>
            right
            refine ⟨⟨nextOrderId s, uid, items, calculateOrderTotal s items⟩, ?_⟩
            simp [createOrder, if_neg hz, hfu, hm]

lemma updateOrder_cases (s : Store) (oid : Nat) (body : OrderRequestBody) :
    (updateOrder s oid body).1 = s ∨
      ∃ o, updateOrder s oid body = (saveOrder s o, .ok o) := by
  cases hord : s.findOrder oid with
  | none => left; simp [updateOrder, hord]
  | some order =>
    cases hap : applyUserIdUpdate s body.userId order with
    | error e => left; simp [updateOrder, hord, hap]
    | ok order1 =>
      cases hbp : body.products with
      | none => right; exact ⟨order1, by simp [updateOrder, hord, hap, hbp]⟩
      | some items =>
        cases hm : firstMissingProduct s items with
        | some pid => left; simp [updateOrder, hord, hap, hbp, hm]
        | none =>
          right
          refine ⟨⟨order1.id, order1.userId, items, calculateOrderTotal s items⟩, ?_⟩
          simp [updateOrder, hord, hap, hbp, hm]

lemma find?_map_replace (l : List Order) (oid : Nat) (order o : Order)
    (hfind : l.find? (fun x => x.id == oid) = some order) (hid : o.id = order.id) :
    (l.map (fun x => if x.id = o.id then o else x)).find? (fun x => x.id == oid) =
      some o := by
  induction l with
  | nil => simp at hfind
  | cons a l ih =>
    by_cases ha : ((fun x : Order => x.id == oid) a) = true
    · have hfa : (a :: l).find? (fun x => x.id == oid) = some a :=
        List.find?_cons_of_pos _ ha
      rw [hfa] at hfind
      injection hfind with hao
      subst hao
      have hoid : a.id = oid := by simpa using ha
      rw [List.map_cons, if_pos hid.symm]
      exact List.find?_cons_of_pos _ (by simp [hid, hoid])
    · have hfa : (a :: l).find? (fun x => x.id == oid) = l.find? (fun x => x.id == oid) :=
        List.find?_cons_of_neg _ ha
      rw [hfa] at hfind
      have hoid : order.id = oid := by simpa using List.find?_some hfind
      have hne : ¬ (a.id = o.id) := by
        rw [hid, hoid]
        intro hcontra
        exact ha (by simp [hcontra])
      rw [List.map_cons, if_neg hne]
      have hstep : (a :: l.map (fun x => if x.id = o.id then o else x)).find?
          (fun x => x.id == oid) =
          (l.map (fun x => if x.id = o.id then o else x)).find?
            (fun x => x.id == oid) :=
        List.find?_cons_of_neg _ ha
      rw [hstep]
      exact ih hfind

lemma findOrder_saveOrder (s : Store) (oid : Nat) (order o : Order)
    (hfind : s.findOrder oid = some order) (hid : o.id = order.id) :
    (saveOrder s o).findOrder oid = some o := by
  unfold Store.findOrder at hfind ⊢
  unfold saveOrder
  exact find?_map_replace s.orders oid order o hfind hid

/-! ### Concrete sample data (the spec's running example: product 1 at 9.99,
product 2 at 5.01, one persisted order with id 7) -/

def sampleUser : User := ⟨1, "alice", "alice@example.com", "pw"⟩

def sampleP1 : Product := ⟨1, "widget", "w", 999/100, 1⟩

def sampleP2 : Product := ⟨2, "gadget", "g", 501/100, 1⟩

def sampleOrder7 : Order := ⟨7, 1, [⟨1, 1⟩], 999/100⟩

def sampleStore : Store := ⟨[sampleUser], [sampleP1, sampleP2], [sampleOrder7]⟩

/-! ### Claim theorems -/

/-- C7: for every valid line-item sequence (all productIds resolving),
`calculateOrderTotal` accumulates price times quantity across line items and
rounds exactly once, on the final sum, to 2 decimal places: it equals the
single application of `round2` to the exact sum, not a per-line-item
rounding. -/
theorem computeTotal_rounds_once_at_end (s : Store) (items : List LineItem)
    (hall : ∀ item ∈ items, (s.findProduct item.productId).isSome = true) :
    calculateOrderTotal s items = round2 (exactOrderSum s items) :=
  calculateOrderTotal_eq s items

/-- Witness for C7 at the spec's example basket. -/
theorem computeTotal_rounds_once_witness :
    calculateOrderTotal sampleStore [⟨1, 2⟩, ⟨2, 3⟩] =
      round2 (exactOrderSum sampleStore [⟨1, 2⟩, ⟨2, 3⟩]) :=
  computeTotal_rounds_once_at_end sampleStore [⟨1, 2⟩, ⟨2, 3⟩] (by decide)

/-- C8: for every valid line-item sequence and every permutation of it,
`calculateOrderTotal` returns the same result. -/
theorem computeTotal_permutation_invariant (s : Store) (l1 l2 : List LineItem)
    (hall : ∀ item ∈ l1, (s.findProduct item.productId).isSome = true)
    (hperm : l1.Perm l2) :
    calculateOrderTotal s l1 = calculateOrderTotal s l2 := by
  rw [calculateOrderTotal_eq, calculateOrderTotal_eq]
  unfold exactOrderSum
  exact congrArg round2 (List.Perm.sum_eq (hperm.map (itemPrice s)))

/-- Witness for C8: swapping the two line items of the example basket. -/
theorem computeTotal_permutation_witness :
    calculateOrderTotal sampleStore [⟨1, 2⟩, ⟨2, 3⟩] =
      calculateOrderTotal sampleStore [⟨2, 3⟩, ⟨1, 2⟩] :=
  computeTotal_permutation_invariant sampleStore [⟨1, 2⟩, ⟨2, 3⟩] [⟨2, 3⟩, ⟨1, 2⟩]
    (by decide) (List.Perm.swap (⟨2, 3⟩ : LineItem) (⟨1, 2⟩ : LineItem) [])

/-- C9: a caller-supplied `total` field has no effect: two request bodies
that agree on `userId` and `products` but differ in `total` produce
identical outcomes (same post-state and same response) for both
`createOrder` and `updateOrder`. -/
theorem caller_total_ignored (s : Store) (oid : Nat) (b1 b2 : OrderRequestBody)
    (hu : b1.userId = b2.userId) (hp : b1.products = b2.products) :
    createOrder s b1 = createOrder s b2 ∧
      updateOrder s oid b1 = updateOrder s oid b2 := by
  obtain ⟨u1, p1, t1⟩ := b1
  obtain ⟨u2, p2, t2⟩ := b2
  dsimp only at hu hp
  subst hu
  subst hp
  exact ⟨rfl, rfl⟩

/-- Witness for C9: a body carrying total 999 versus one carrying no total. -/
theorem caller_total_ignored_witness :
    createOrder sampleStore ⟨some 1, some [⟨1, 2⟩], some 999⟩ =
      createOrder sampleStore ⟨some 1, some [⟨1, 2⟩], none⟩ ∧
    updateOrder sampleStore 7 ⟨some 1, some [⟨1, 2⟩], some 999⟩ =
      updateOrder sampleStore 7 ⟨some 1, some [⟨1, 2⟩], none⟩ :=
  caller_total_ignored sampleStore 7 ⟨some 1, some [⟨1, 2⟩], some 999⟩
    ⟨some 1, some [⟨1, 2⟩], none⟩ rfl rfl

/-- C4: whenever createOrder or updateOrder returns an error (in particular
the invalid-reference errors for a nonexistent userId or productId), the
store is unchanged: no partial write survives a failed validation. -/
theorem failed_validation_preserves_store (s : Store) (body : OrderRequestBody)
    (oid : Nat) :
    (∀ e, (createOrder s body).2 = .error e → (createOrder s body).1 = s) ∧
    (∀ e, (updateOrder s oid body).2 = .error e → (updateOrder s oid body).1 = s) := by
  constructor
  · intro e he
    rcases createOrder_cases s body with h | ⟨o, h⟩
    · exact h
    · rw [h] at he
      simp at he
  · intro e he
    rcases updateOrder_cases s oid body with h | ⟨o, h⟩
    · exact h
    · rw [h] at he
      simp at he

/-- Witness for C4: a create request naming nonexistent product 999 (with a
valid userId) leaves the store exactly as it was. -/
theorem failed_validation_preserves_store_witness :
    (createOrder sampleStore ⟨some 1, some [⟨999, 1⟩], none⟩).1 = sampleStore :=
  (failed_validation_preserves_store sampleStore ⟨some 1, some [⟨999, 1⟩], none⟩ 7).1
    (.productNotExist 999) (by rfl)

/-- C2: when some line item's productId does not resolve, createOrder (the
caller of the pricing engine) fails with the product-not-found error naming
an offending productId, the store is untouched, and no total is returned. -/
theorem createOrder_missing_product_reference_not_found (s : Store) (uid : Nat)
    (items : List LineItem) (t : Option ℚ) (hz : uid ≠ 0)
    (hu : (s.findUser uid).isSome = true)
    (hmiss : ∃ item ∈ items, s.findProduct item.productId = none) :
    ∃ pid, s.findProduct pid = none ∧ pid ∈ items.map (fun i => i.productId) ∧
      createOrder s ⟨some uid, some items, t⟩ =
        (s, .error (.productNotExist pid)) := by
  obtain ⟨pid, hpid⟩ := firstMissingProduct_isSome s items hmiss
  obtain ⟨hnone, hmem⟩ := firstMissingProduct_eq_some s items pid hpid
  refine ⟨pid, hnone, hmem, ?_⟩
  obtain ⟨u, hu2⟩ := Option.isSome_iff_exists.mp hu
  simp [createOrder, hz, hu2, hpid]

/-- Witness for C2: requesting nonexistent product 999 with an existing user. -/
theorem createOrder_missing_product_witness :
    ∃ pid, sampleStore.findProduct pid = none ∧
      pid ∈ ([⟨999, 1⟩] : List LineItem).map (fun i => i.productId) ∧
      createOrder sampleStore ⟨some 1, some [⟨999, 1⟩], none⟩ =
        (sampleStore, .error (.productNotExist pid)) :=
  createOrder_missing_product_reference_not_found sampleStore 1 [⟨999, 1⟩] none
    (by decide) (by rfl) ⟨⟨999, 1⟩, by simp, by rfl⟩

/-- C10: createOrder with an existing (nonzero) userId and an empty products
array succeeds, persisting an order with empty `products` and `total` 0; no
minimum line-item count is imposed. -/
theorem createOrder_empty_products_total_zero (s : Store) (uid : Nat) (t : Option ℚ)
    (hz : uid ≠ 0) (hu : (s.findUser uid).isSome = true) :
    createOrder s ⟨some uid, some [], t⟩ =
      ({ s with orders := s.orders ++ [⟨nextOrderId s, uid, [], 0⟩] },
        .ok ⟨nextOrderId s, uid, [], 0⟩) := by
  obtain ⟨u, hu2⟩ := Option.isSome_iff_exists.mp hu
  have htot : calculateOrderTotal s [] = 0 := by
    norm_num [calculateOrderTotal, round2, mathRound]
  simp [createOrder, hz, hu2, firstMissingProduct, htot]

/-- Witness for C10 on the sample store. -/
theorem createOrder_empty_products_witness :
    createOrder sampleStore ⟨some 1, some [], none⟩ =
      ({ sampleStore with
          orders := sampleStore.orders ++ [⟨nextOrderId sampleStore, 1, [], 0⟩] },
        .ok ⟨nextOrderId sampleStore, 1, [], 0⟩) :=
  createOrder_empty_products_total_zero sampleStore 1 none (by decide) (by rfl)

/-- C1 (amended): every order persisted by a successful createOrder, or by a
successful updateOrder that supplied a products list, stores
`total = round2 (Σ price × quantity)` — the exact sum over the stored line
items at current catalog prices, rounded once to 2 decimal places with
JavaScript `Math.round` semantics (round-half-up, ties toward +∞).  For
non-negative sums this coincides with the round-half-away-from-zero mode the
original claim names (third conjunct); the two modes differ only on negative
ties, which the code resolves toward zero. -/
theorem persisted_total_eq_round_half_up_sum (s : Store) (body : OrderRequestBody)
    (oid : Nat) (st : Store) (o : Order) :
    (createOrder s body = (st, .ok o) →
      o.total = round2 (exactOrderSum s o.products)) ∧
    (updateOrder s oid body = (st, .ok o) → body.products.isSome = true →
      o.total = round2 (exactOrderSum s o.products)) ∧
    (∀ x : ℚ, 0 ≤ x → round2 x = round2Away x) := by
  refine ⟨?_, ?_, fun x hx => round2_eq_round2Away_of_nonneg x hx⟩
  · intro h
    obtain ⟨uid, items, hbu, hbp, hz, hfu, hm, ho, hst⟩ :=
      createOrder_ok_inv s body st o h
    subst ho
    simpa using calculateOrderTotal_eq s items
  · intro h hps
    obtain ⟨order, order1, hord, hap, hcase⟩ := updateOrder_ok_inv s oid body st o h
    rcases hcase with ⟨items, hbp, hm, ho, hst⟩ | ⟨hbp, ho, hst⟩
    · subst ho
      simpa using calculateOrderTotal_eq s items
    · rw [hbp] at hps
      simp at hps

/-! Counterexample data for C1 as originally stated: a catalog price with a
half-cent (397/200 = 1.985) and a negative quantity, which the handlers
accept, produce the exact sum -1.985; `Math.round(-198.5)` is -198 (ties
toward +∞), so the stored total is -1.98, while round-half-away-from-zero
gives -1.99. -/

def tieStore : Store := ⟨[sampleUser], [⟨1, "candy", "c", 397/200, 1⟩], []⟩

def tieBody : OrderRequestBody := ⟨some 1, some [⟨1, -1⟩], none⟩

def tieOrder : Order := ⟨1, 1, [⟨1, -1⟩], -99/50⟩

/-- C1 counterexample: a successful createOrder persists a total that is not
the round-half-away-from-zero rounding of the exact sum. -/
theorem createOrder_negative_tie_not_half_away :
    createOrder tieStore tieBody =
      ({ tieStore with orders := [tieOrder] }, .ok tieOrder) ∧
    tieOrder.total ≠ round2Away (exactOrderSum tieStore tieOrder.products) := by
  constructor
  · simp [createOrder, calculateOrderTotal, tieStore, tieBody, tieOrder, sampleUser,
      Store.findUser, Store.findProduct, List.find?, firstMissingProduct, nextOrderId]
    norm_num [round2, mathRound]
  · simp [tieOrder, tieStore, exactOrderSum, itemPrice, Store.findProduct, List.find?]
    norm_num [round2Away, roundHalfAwayFromZero]

/-- Witness for C1 (amended) at the spec's example basket: 2 × 9.99 plus
3 × 5.01 rounds to 35.01. -/
theorem persisted_total_witness :
    (⟨8, 1, [⟨1, 2⟩, ⟨2, 3⟩], 3501/100⟩ : Order).total =
      round2 (exactOrderSum sampleStore
        (⟨8, 1, [⟨1, 2⟩, ⟨2, 3⟩], 3501/100⟩ : Order).products) :=
  (persisted_total_eq_round_half_up_sum sampleStore
      ⟨some 1, some [⟨1, 2⟩, ⟨2, 3⟩], none⟩ 7
      { sampleStore with orders := [sampleOrder7, ⟨8, 1, [⟨1, 2⟩, ⟨2, 3⟩], 3501/100⟩] }
      ⟨8, 1, [⟨1, 2⟩, ⟨2, 3⟩], 3501/100⟩).1
    (by simp [createOrder, calculateOrderTotal, sampleStore, sampleP1, sampleP2,
          sampleUser, sampleOrder7, Store.findUser, Store.findProduct, List.find?,
          firstMissingProduct, nextOrderId]
        norm_num [round2, mathRound])

/-- C3 counterexample: a create request whose only line item has quantity 0
(a non-positive quantity) and a resolving productId is not rejected: it
succeeds and is priced (total 0). -/
theorem createOrder_accepts_zero_quantity :
    createOrder sampleStore ⟨some 1, some [⟨1, 0⟩], none⟩ =
      ({ sampleStore with orders := [sampleOrder7, ⟨8, 1, [⟨1, 0⟩], 0⟩] },
        .ok ⟨8, 1, [⟨1, 0⟩], 0⟩) := by
  simp [createOrder, calculateOrderTotal, sampleStore, sampleP1, sampleP2, sampleUser,
    sampleOrder7, Store.findUser, Store.findProduct, List.find?, firstMissingProduct,
    nextOrderId]
  norm_num [round2, mathRound]

/-- C3 (amended): neither handler validates quantities.  When every productId
resolves (and the other reference checks pass), createOrder and updateOrder
accept the request even when every quantity is non-positive, and price it
with those quantities: pricing is reached, not prevented. -/
theorem no_quantity_validation_before_pricing (s : Store) (uid : Nat)
    (items : List LineItem) (t : Option ℚ) (oid : Nat) (order : Order)
    (hz : uid ≠ 0) (hu : (s.findUser uid).isSome = true)
    (hall : ∀ item ∈ items, (s.findProduct item.productId).isSome = true)
    (hq : ∀ item ∈ items, item.quantity ≤ 0)
    (hord : s.findOrder oid = some order) :
    ((createOrder s ⟨some uid, some items, t⟩).2 =
        .ok ⟨nextOrderId s, uid, items, calculateOrderTotal s items⟩) ∧
    ((updateOrder s oid ⟨none, some items, t⟩).2 =
        .ok ⟨order.id, order.userId, items, calculateOrderTotal s items⟩) ∧
    calculateOrderTotal s items = round2 (exactOrderSum s items) := by
  have hm : firstMissingProduct s items = none :=
    (firstMissingProduct_eq_none s items).mpr hall
  obtain ⟨u, hu2⟩ := Option.isSome_iff_exists.mp hu
  refine ⟨?_, ?_, calculateOrderTotal_eq s items⟩
  · simp [createOrder, hz, hu2, hm]
  · simp [updateOrder, hord, applyUserIdUpdate, hm]

/-- Witness for C3 (amended): the zero-quantity request against the sample
store. -/
theorem no_quantity_validation_witness :
    ((createOrder sampleStore ⟨some 1, some [⟨1, 0⟩], none⟩).2 =
        .ok ⟨nextOrderId sampleStore, 1, [⟨1, 0⟩],
          calculateOrderTotal sampleStore [⟨1, 0⟩]⟩) ∧
    ((updateOrder sampleStore 7 ⟨none, some [⟨1, 0⟩], none⟩).2 =
        .ok ⟨sampleOrder7.id, sampleOrder7.userId, [⟨1, 0⟩],
          calculateOrderTotal sampleStore [⟨1, 0⟩]⟩) ∧
    calculateOrderTotal sampleStore [⟨1, 0⟩] =
      round2 (exactOrderSum sampleStore [⟨1, 0⟩]) :=
  no_quantity_validation_before_pricing sampleStore 1 [⟨1, 0⟩] none 7 sampleOrder7
    (by decide) (by rfl) (by decide) (by decide) (by rfl)

/-- C5: an updateOrder request supplying only `userId` (no products field)
leaves the order's `products` and `total` unchanged, both in the response
record and in the persisted row. -/
theorem update_userId_only_preserves_products_total (s : Store) (oid : Nat)
    (u : Nat) (t : Option ℚ) (order : Order) (st : Store) (o : Order)
    (hord : s.findOrder oid = some order)
    (h : updateOrder s oid ⟨some u, none, t⟩ = (st, .ok o)) :
    o.products = order.products ∧ o.total = order.total ∧
      st.findOrder oid = some o := by
  obtain ⟨order0, order1, hord0, hap, hcase⟩ :=
    updateOrder_ok_inv s oid ⟨some u, none, t⟩ st o h
  rw [hord] at hord0
  injection hord0 with he
  subst he
  obtain ⟨hid, hp, ht⟩ := applyUserIdUpdate_ok s (some u) order order1 hap
  rcases hcase with ⟨items, hbp, hm2, ho, hst⟩ | ⟨hbp, ho, hst⟩
  · exact absurd hbp (by simp)
  · subst ho
    subst hst
    exact ⟨hp, ht, findOrder_saveOrder s oid order o hord hid⟩

/-- Witness for C5: updating order 7 with only a userId. -/
theorem update_userId_only_witness :
    sampleOrder7.products = sampleOrder7.products ∧
      sampleOrder7.total = sampleOrder7.total ∧
      (saveOrder sampleStore sampleOrder7).findOrder 7 = some sampleOrder7 :=
  update_userId_only_preserves_products_total sampleStore 7 1 none sampleOrder7
    (saveOrder sampleStore sampleOrder7) sampleOrder7 (by rfl) (by rfl)

/-- C6: on a successful updateOrder, `total` is recomputed exactly when a
products list was supplied: if it was, the persisted record carries the new
list and the total computed by `calculateOrderTotal` from it against the
pre-update catalog (equivalently, the rounded exact sum), and the merged
record is persisted; if it was not, the response record keeps the loaded
row's products and total. -/
theorem update_recomputes_total_iff_products_supplied (s : Store) (oid : Nat)
    (body : OrderRequestBody) (st : Store) (o : Order)
    (h : updateOrder s oid body = (st, .ok o)) :
    (∀ items, body.products = some items →
      o.products = items ∧ o.total = calculateOrderTotal s items ∧
      o.total = round2 (exactOrderSum s items) ∧ st.findOrder oid = some o) ∧
    (body.products = none → ∀ order, s.findOrder oid = some order →
      o.products = order.products ∧ o.total = order.total) := by
  obtain ⟨order0, order1, hord0, hap, hcase⟩ := updateOrder_ok_inv s oid body st o h
  obtain ⟨hid, hp, ht⟩ := applyUserIdUpdate_ok s body.userId order0 order1 hap
  constructor
  · intro items hbp
    rcases hcase with ⟨items2, hbp2, hm, ho, hst⟩ | ⟨hbp2, ho, hst⟩
    · rw [hbp] at hbp2
      injection hbp2 with hi
      subst hi
      subst ho
      subst hst
      refine ⟨rfl, rfl, calculateOrderTotal_eq s items, ?_⟩
      exact findOrder_saveOrder s oid order0 _ hord0 hid
    · rw [hbp2] at hbp
      exact Option.noConfusion hbp
  · intro hbp order hord
    rcases hcase with ⟨items2, hbp2, hm, ho, hst⟩ | ⟨hbp2, ho, hst⟩
    · rw [hbp] at hbp2
      exact Option.noConfusion hbp2
    · rw [hord] at hord0
      injection hord0 with he
      subst he
      subst ho
      exact ⟨hp, ht⟩

/-- Witness for C6, matching the spec's worked example: updating order 7
with products `[{P1, 3}]` recomputes the total to 29.97 and persists the
merged record. -/
theorem update_recomputes_total_witness :
    (⟨7, 1, [⟨1, 3⟩], 2997/100⟩ : Order).products = [⟨1, 3⟩] ∧
    (⟨7, 1, [⟨1, 3⟩], 2997/100⟩ : Order).total =
      calculateOrderTotal sampleStore [⟨1, 3⟩] ∧
    (⟨7, 1, [⟨1, 3⟩], 2997/100⟩ : Order).total =
      round2 (exactOrderSum sampleStore [⟨1, 3⟩]) ∧
    (saveOrder sampleStore ⟨7, 1, [⟨1, 3⟩], 2997/100⟩).findOrder 7 =
      some ⟨7, 1, [⟨1, 3⟩], 2997/100⟩ :=
  (update_recomputes_total_iff_products_supplied sampleStore 7
      ⟨none, some [⟨1, 3⟩], none⟩
      (saveOrder sampleStore ⟨7, 1, [⟨1, 3⟩], 2997/100⟩)
      ⟨7, 1, [⟨1, 3⟩], 2997/100⟩
      (by simp [updateOrder, applyUserIdUpdate, calculateOrderTotal, sampleStore,
            sampleOrder7, sampleP1, sampleP2, sampleUser, Store.findOrder,
            Store.findProduct, List.find?, firstMissingProduct, saveOrder]
          norm_num [round2, mathRound])).1
    [⟨1, 3⟩] rfl
